import Mathlib

/-!
Verification of the variable-height virtualization engine of `agui`
(`crates/agui-desktop/src/stream/virtual_list.rs` and
`crates/agui-desktop/src/stream/state.rs`).

The engine works on `f32` values.  We embed `f32` as exact rationals
extended with the three special values `nan`, `+inf`, `-inf`; arithmetic on
the rational part is exact (rounding is irrelevant to the stated claims),
while the propagation and comparison rules of the special values follow
IEEE-754 exactly as Rust's `f32` operations implement them
(`partial_cmp`, `clamp`, `max`, `abs`, `+`, `-`, `*`).

Functions that can panic in the source (the `unwrap` of `partial_cmp`
inside the binary-search comparator) are embedded as `Option`-returning
functions; `none` models the panic.
-/

/-- Embedded `f32`: `nan`, the two infinities, and exact finite values. -/
inductive F where
  | nan : F
  | pinf : F
  | ninf : F
  | val : ℚ → F
deriving DecidableEq, Repr

namespace F

/-- IEEE `<` (false whenever a `nan` is involved). -/
def flt : F → F → Bool
  | nan, _ => false
  | _, nan => false
  | pinf, _ => false
  | ninf, ninf => false
  | ninf, _ => true
  | val _, pinf => true
  | val _, ninf => false
  | val a, val b => decide (a < b)

/-- IEEE `<=` (false whenever a `nan` is involved). -/
def fle : F → F → Bool
  | nan, _ => false
  | _, nan => false
  | pinf, pinf => true
  | pinf, _ => false
  | ninf, _ => true
  | val _, pinf => true
  | val _, ninf => false
  | val a, val b => decide (a ≤ b)

/-- IEEE `>`. -/
def fgt (a b : F) : Bool := flt b a

/-- `PartialOrd::partial_cmp` on `f32`: `none` iff a `nan` is involved. -/
def fcmp : F → F → Option Ordering
  | nan, _ => none
  | _, nan => none
  | pinf, pinf => some .eq
  | pinf, _ => some .gt
  | ninf, ninf => some .eq
  | ninf, _ => some .lt
  | val _, pinf => some .lt
  | val _, ninf => some .gt
  | val a, val b => some (if a < b then .lt else if a = b then .eq else .gt)

/-- IEEE negation. -/
def fneg : F → F
  | nan => nan
  | pinf => ninf
  | ninf => pinf
  | val a => val (-a)

/-- IEEE addition (exact on the finite part). -/
def fadd : F → F → F
  | nan, _ => nan
  | _, nan => nan
  | pinf, ninf => nan
  | ninf, pinf => nan
  | pinf, _ => pinf
  | ninf, _ => ninf
  | val _, pinf => pinf
  | val _, ninf => ninf
  | val a, val b => val (a + b)

/-- IEEE subtraction. -/
def fsub (a b : F) : F := fadd a (fneg b)

/-- IEEE multiplication (exact on the finite part). -/
def fmul : F → F → F
  | nan, _ => nan
  | _, nan => nan
  | pinf, pinf => pinf
  | pinf, ninf => ninf
  | ninf, pinf => ninf
  | ninf, ninf => pinf
  | pinf, val b => if b = 0 then nan else if 0 < b then pinf else ninf
  | ninf, val b => if b = 0 then nan else if 0 < b then ninf else pinf
  | val a, pinf => if a = 0 then nan else if 0 < a then pinf else ninf
  | val a, ninf => if a = 0 then nan else if 0 < a then ninf else pinf
  | val a, val b => val (a * b)

/-- IEEE absolute value. -/
def fabs : F → F
  | nan => nan
  | pinf => pinf
  | ninf => pinf
  | val a => val |a|

/-- Rust `f32::max`: ignores a `nan` operand, returns the larger value. -/
def fmax : F → F → F
  | nan, b => b
  | a, nan => a
  | a, b => if flt a b then b else a

/-- Rust `f32::clamp(lo, hi)`: `if self < lo { lo } else if self > hi { hi }
else { self }`; in particular a `nan` input passes through unchanged.
(The `assert!(lo <= hi)` of the Rust implementation is not modelled; both
engine call sites pass `lo = 0.0 <= hi` resp. the configured
`min <= max` bounds.) -/
def fclamp (x lo hi : F) : F :=
  if flt x lo then lo else if flt hi x then hi else x

end F

/-- Rust `Vec::resize(count, fill)` on a list. -/
def listResize (xs : List F) (n : Nat) (fill : F) : List F :=
  if n ≤ xs.length then xs.take n
  else xs ++ List.replicate (n - xs.length) fill

/-- Running sums of a height list (accumulator-passing form of the loop in
`ensure_calculated` / `recalculate_heights_if_dirty`). -/
def scanSum (acc : F) : List F → List F
  | [] => []
  | h :: t => (F.fadd acc h) :: scanSum (F.fadd acc h) t

/-- The scalar sum accumulated by the same loop. -/
def foldSum (acc : F) (xs : List F) : F := xs.foldl F.fadd acc

/-- Core loop of Rust `slice::binary_search_by` on interval `[left, right)`.
The comparator is partial (`Option Ordering`); a `none` from it is the
`unwrap` panic of the source comparator and aborts the whole search with
`none`.  `some (.inl i)` is `Ok(i)`, `some (.inr i)` is `Err(i)`. -/
def bsGo (f : F → Option Ordering) (xs : List F) (left right : Nat) :
    Option (Nat ⊕ Nat) :=
  if h : left < right then
    let mid := left + (right - left) / 2
    match f (xs.getD mid (F.val 0)) with
    | none => none
    | some .lt => bsGo f xs (mid + 1) right
    | some .gt => bsGo f xs left mid
    | some .eq => some (.inl mid)
  else some (.inr left)
termination_by right - left
decreasing_by
  · omega
  · have : (right - left) / 2 < right - left := Nat.div_lt_self (by omega) (by omega)
    omega

/-- Rust `slice::binary_search_by`, with `Ok`/`Err` results merged as both
call sites of the engine do (`Ok(idx) => idx, Err(idx) => idx`).  `none`
models the comparator panic. -/
def binarySearchIdx (xs : List F) (offset : F) : Option Nat :=
  match bsGo (fun h => F.fcmp h offset) xs 0 xs.length with
  | none => none
  | some (.inl i) => some i
  | some (.inr i) => some i

/-- `VirtualListConfig` (virtual_list.rs). -/
structure VirtualListConfig where
  overscan : Nat
  min_item_height : F
  max_item_height : F
  default_item_height : F
  smooth_scroll : Bool
  scroll_speed : F
deriving Repr, DecidableEq

/-- `VirtualListConfig::default()`. -/
def VirtualListConfig.default : VirtualListConfig :=
  { overscan := 3
    min_item_height := F.val 40
    max_item_height := F.val 500
    default_item_height := F.val 80
    smooth_scroll := true
    scroll_speed := F.val 40 }

/-- `VirtualList` (virtual_list.rs). -/
structure VirtualList where
  config : VirtualListConfig
  item_count : Nat
  heights : List F
  cumulative_heights : List F
  total_height : F
  scroll_offset : F
  viewport_height : F
  dirty : Bool
deriving Repr, DecidableEq

/-- `VisibleRange` (virtual_list.rs); `stop` is the exclusive `end` field. -/
structure VisibleRange where
  start : Nat
  stop : Nat
  start_offset : F
deriving Repr, DecidableEq

namespace VirtualList

/-- `VirtualList::new`. -/
def new (config : VirtualListConfig) : VirtualList :=
  { config := config
    item_count := 0
    heights := []
    cumulative_heights := []
    total_height := F.val 0
    scroll_offset := F.val 0
    viewport_height := F.val 600
    dirty := false }

/-- `VirtualList::set_item_count`. -/
def set_item_count (s : VirtualList) (count : Nat) : VirtualList :=
  if count ≠ s.item_count then
    { s with
      item_count := count
      heights := listResize s.heights count s.config.default_item_height
      dirty := true }
  else s

/-- `VirtualList::set_viewport_height`. -/
def set_viewport_height (s : VirtualList) (height : F) : VirtualList :=
  { s with viewport_height := height }

/-- Body shared by `set_item_height` and each step of `set_item_heights`. -/
def setHeightOne (s : VirtualList) (index : Nat) (height : F) : VirtualList :=
  if index < s.heights.length then
    let clamped := F.fclamp height s.config.min_item_height s.config.max_item_height
    if F.fgt (F.fabs (F.fsub (s.heights.getD index (F.val 0)) clamped)) (F.val (1/2)) then
      { s with heights := s.heights.set index clamped, dirty := true }
    else s
  else s

/-- `VirtualList::set_item_height`. -/
def set_item_height (s : VirtualList) (index : Nat) (height : F) : VirtualList :=
  setHeightOne s index height

/-- `VirtualList::set_item_heights` (batched form). -/
def set_item_heights (s : VirtualList) (pairs : List (Nat × F)) : VirtualList :=
  pairs.foldl (fun acc p => setHeightOne acc p.1 p.2) s

/-- `VirtualList::ensure_calculated`: rebuild the cumulative index iff the
dirty flag is set, clearing the flag. -/
def ensure_calculated (s : VirtualList) : VirtualList :=
  if s.dirty then
    { s with
      cumulative_heights := scanSum (F.val 0) s.heights
      total_height := foldSum (F.val 0) s.heights
      dirty := false }
  else s

/-- `VirtualList::ensure_calculated_immut`: a no-op in the source (immutable
context); embedded as the identity it is. -/
def ensure_calculated_immut (s : VirtualList) : VirtualList := s

/-- `VirtualList::set_scroll_offset`. -/
def set_scroll_offset (s : VirtualList) (offset : F) : VirtualList :=
  let s1 := ensure_calculated s
  let max_scroll := F.fmax (F.fsub s1.total_height s1.viewport_height) (F.val 0)
  { s1 with scroll_offset := F.fclamp offset (F.val 0) max_scroll }

/-- `VirtualList::scroll_by`. -/
def scroll_by (s : VirtualList) (delta : F) : VirtualList :=
  set_scroll_offset s (F.fadd s.scroll_offset (F.fmul delta s.config.scroll_speed))

/-- `VirtualList::scroll_to_bottom`. -/
def scroll_to_bottom (s : VirtualList) : VirtualList :=
  let s1 := ensure_calculated s
  let max_scroll := F.fmax (F.fsub s1.total_height s1.viewport_height) (F.val 0)
  { s1 with scroll_offset := max_scroll }

/-- `VirtualList::total_height` (query; `ensure_calculated_immut` is a
no-op, so this reads the cached field). -/
def total_height_q (s : VirtualList) : F :=
  (ensure_calculated_immut s).total_height

/-- `VirtualList::item_offset`. -/
def item_offset (s : VirtualList) (index : Nat) : F :=
  let s0 := ensure_calculated_immut s
  if index = 0 then F.val 0
  else if index ≤ s0.cumulative_heights.length then
    s0.cumulative_heights.getD (index - 1) (F.val 0)
  else s0.total_height

/-- `VirtualList::scroll_to_item`. -/
def scroll_to_item (s : VirtualList) (index : Nat) : VirtualList :=
  let s1 := ensure_calculated s
  if index ≥ s1.item_count then s1
  else
    let item_top := item_offset s1 index
    let item_bottom := F.fadd item_top (s1.heights.getD index (F.val 0))
    if F.flt item_top s1.scroll_offset then
      { s1 with scroll_offset := item_top }
    else if F.fgt item_bottom (F.fadd s1.scroll_offset s1.viewport_height) then
      { s1 with scroll_offset := F.fsub item_bottom s1.viewport_height }
    else s1

/-- `VirtualList::find_item_at_offset`; `none` is the comparator panic. -/
def find_item_at_offset (s : VirtualList) (offset : F) : Option Nat :=
  if s.cumulative_heights.isEmpty then some 0
  else
    match binarySearchIdx s.cumulative_heights offset with
    | none => none
    | some idx => some (min idx (s.item_count - 1))

/-- `VirtualList::visible_range`; `none` is the comparator panic. -/
def visible_range (s : VirtualList) : Option VisibleRange :=
  let s0 := ensure_calculated_immut s
  if s0.item_count = 0 then
    some { start := 0, stop := 0, start_offset := F.val 0 }
  else
    match find_item_at_offset s0 s0.scroll_offset with
    | none => none
    | some start_idx =>
      match find_item_at_offset s0 (F.fadd s0.scroll_offset s0.viewport_height) with
      | none => none
      | some e =>
        let end_idx := min e (s0.item_count - 1)
        let start := start_idx - s0.config.overscan
        let stop := min (end_idx + 1 + s0.config.overscan) s0.item_count
        some { start := start, stop := stop, start_offset := item_offset s0 start }

/-- `VirtualList::is_at_bottom`. -/
def is_at_bottom (s : VirtualList) : Bool :=
  let s0 := ensure_calculated_immut s
  let max_scroll := F.fmax (F.fsub s0.total_height s0.viewport_height) (F.val 0)
  F.fle (F.fsub max_scroll (F.val 10)) s0.scroll_offset

end VirtualList

/-- `StreamContent` (types.rs), keeping exactly the payload read by
`StreamItem::estimated_height`, `update_tool_call_status` and
`toggle_expanded`. -/
inductive StreamContent where
  | userMessage (len : Nat)
  | agentMessage (len : Nat)
  | reasoning (expanded : Bool)
  | toolCall (callId : String) (expanded : Bool)
  | plan (numItems : Nat)
  | approval
  | statusUpdate
  | divider
deriving Repr, DecidableEq

/-- `StreamItem` (types.rs); the timestamp plays no role in any claim. -/
structure StreamItem where
  id : String
  content : StreamContent
  expanded : Bool
deriving Repr, DecidableEq

instance : Inhabited StreamItem := ⟨⟨"", .divider, false⟩⟩

/-- `StreamItem::estimated_height` (types.rs); `len as f32 / 60.0` is exact
for every realistic length, so the `ceil` is taken over exact rationals. -/
def StreamItem.estimated_height (it : StreamItem) : F :=
  match it.content with
  | .userMessage len => F.val (60 + ⌈(len : ℚ) / 60⌉ * 20)
  | .agentMessage len => F.val (80 + ⌈(len : ℚ) / 60⌉ * 20)
  | .reasoning _ => F.val 48
  | .toolCall _ expanded => F.val (100 + if expanded then 80 else 0)
  | .plan numItems => F.val (60 + numItems * 32)
  | .approval => F.val 120
  | .statusUpdate => F.val 40
  | .divider => F.val 24

/-- `StreamState` (state.rs).  The `HashMap<StreamItemId, usize>` is
embedded extensionally as a function `String → Option Nat`; `insert`
overrides it pointwise and `clear` resets it to the empty map, matching
`HashMap::insert` / `HashMap::clear`. -/
structure StreamState where
  items : List StreamItem
  item_index : String → Option Nat
  selected_id : Option String
  scroll_offset : F
  viewport_height : F
  total_height : F
  auto_scroll : Bool
  height_cache : List F
  height_dirty : Bool

namespace StreamState

/-- `StreamState::new`. -/
def new : StreamState :=
  { items := []
    item_index := fun _ => none
    selected_id := none
    scroll_offset := F.val 0
    viewport_height := F.val 600
    total_height := F.val 0
    auto_scroll := true
    height_cache := []
    height_dirty := false }

/-- `StreamState::recalculate_heights_if_dirty`. -/
def recalculate_heights_if_dirty (s : StreamState) : StreamState :=
  if s.height_dirty then
    { s with
      height_cache := scanSum (F.val 0) (s.items.map StreamItem.estimated_height)
      total_height := foldSum (F.val 0) (s.items.map StreamItem.estimated_height)
      height_dirty := false }
  else s

/-- `StreamState::recalculate_heights_if_dirty_immut`: a no-op in the
source (immutable context); embedded as the identity it is. -/
def recalculate_heights_if_dirty_immut (s : StreamState) : StreamState := s

/-- `StreamState::scroll_to_bottom`. -/
def scroll_to_bottom (s : StreamState) : StreamState :=
  let s1 := recalculate_heights_if_dirty s
  let max_scroll := F.fmax (F.fsub s1.total_height s1.viewport_height) (F.val 0)
  { s1 with scroll_offset := max_scroll, auto_scroll := true }

/-- `StreamState::push`. -/
def push (s : StreamState) (item : StreamItem) : StreamState :=
  let index := s.items.length
  let s1 :=
    { s with
      item_index := fun x => if x = item.id then some index else s.item_index x
      items := s.items ++ [item]
      height_dirty := true }
  if s1.auto_scroll then scroll_to_bottom s1 else s1

/-- `StreamState::update` (the state effect; the returned `bool` is
`true` iff the id was found). -/
def update (s : StreamState) (id : String) (content : StreamContent) : StreamState :=
  match s.item_index id with
  | some idx =>
    { s with
      items := s.items.set idx { s.items.getD idx default with content := content }
      height_dirty := true }
  | none => s

/-- `StreamItem` part of `StreamState::toggle_expanded`. -/
def toggleItem (it : StreamItem) : StreamItem :=
  let it1 := { it with expanded := !it.expanded }
  match it1.content with
  | .reasoning e => { it1 with content := .reasoning (!e) }
  | .toolCall c e => { it1 with content := .toolCall c (!e) }
  | _ => it1

/-- `StreamState::toggle_expanded` (the state effect). -/
def toggle_expanded (s : StreamState) (id : String) : StreamState :=
  match s.item_index id with
  | some idx =>
    { s with
      items := s.items.set idx (toggleItem (s.items.getD idx default))
      height_dirty := true }
  | none => s

/-- `StreamState::clear`. -/
def clear (s : StreamState) : StreamState :=
  { s with
    items := []
    item_index := fun _ => none
    selected_id := none
    scroll_offset := F.val 0
    total_height := F.val 0
    height_cache := []
    height_dirty := false }

/-- `StreamState::set_viewport_height`. -/
def set_viewport_height (s : StreamState) (height : F) : StreamState :=
  { s with viewport_height := height }

/-- `StreamState::set_scroll_offset`. -/
def set_scroll_offset (s : StreamState) (offset : F) : StreamState :=
  let s1 := recalculate_heights_if_dirty s
  let max_scroll := F.fmax (F.fsub s1.total_height s1.viewport_height) (F.val 0)
  let new_offset := F.fclamp offset (F.val 0) max_scroll
  let s2 := { s1 with scroll_offset := new_offset }
  if F.flt new_offset (F.fsub max_scroll (F.val 50)) then
    { s2 with auto_scroll := false }
  else s2

/-- `StreamState::scroll_by`. -/
def scroll_by (s : StreamState) (delta : F) : StreamState :=
  set_scroll_offset s (F.fadd s.scroll_offset delta)

/-- `StreamState::enable_auto_scroll`. -/
def enable_auto_scroll (s : StreamState) : StreamState :=
  scroll_to_bottom { s with auto_scroll := true }

/-- `StreamState::find_item_at_offset`; `none` is the comparator panic. -/
def find_item_at_offset (s : StreamState) (offset : F) : Option Nat :=
  if s.height_cache.isEmpty then some 0
  else binarySearchIdx s.height_cache offset

/-- `StreamState::visible_range`; `none` is the comparator panic. -/
def visible_range (s : StreamState) : Option (Nat × Nat) :=
  let s0 := recalculate_heights_if_dirty_immut s
  if s0.items.isEmpty then some (0, 0)
  else
    match find_item_at_offset s0 s0.scroll_offset with
    | none => none
    | some start_idx =>
      match find_item_at_offset s0 (F.fadd s0.scroll_offset s0.viewport_height) with
      | none => none
      | some e =>
        let end_idx := min e (s0.items.length - 1)
        let buffer := 2
        some (start_idx - buffer, min (end_idx + buffer) s0.items.length)

/-- `StreamState::item_offset`. -/
def item_offset (s : StreamState) (index : Nat) : F :=
  let s0 := recalculate_heights_if_dirty_immut s
  if index = 0 then F.val 0
  else if index ≤ s0.height_cache.length then
    s0.height_cache.getD (index - 1) (F.val 0)
  else s0.total_height

/-- `StreamState::select`. -/
def select (s : StreamState) (id : Option String) : StreamState :=
  { s with selected_id := id }

/-- `StreamState::select_next`. -/
def select_next (s : StreamState) : StreamState :=
  let next_id :=
    match s.selected_id with
    | none => (s.items.head?).map StreamItem.id
    | some id =>
      match s.item_index id with
      | some idx =>
        if idx + 1 < s.items.length then some ((s.items.getD (idx + 1) default).id)
        else some id
      | none => none
  { s with selected_id := next_id }

/-- `StreamState::select_previous`. -/
def select_previous (s : StreamState) : StreamState :=
  let prev_id :=
    match s.selected_id with
    | none => (s.items.getLast?).map StreamItem.id
    | some id =>
      match s.item_index id with
      | some idx =>
        if 0 < idx then some ((s.items.getD (idx - 1) default).id)
        else some id
      | none => none
  { s with selected_id := prev_id }

end StreamState

/-- The public mutators of `StreamState` other than `scroll_to_bottom` and
its wrapper `enable_auto_scroll` (whose whole ON-effect is the
`scroll_to_bottom` call inside it). -/
inductive SOp where
  | push (item : StreamItem)
  | update (id : String) (content : StreamContent)
  | toggleExpanded (id : String)
  | clear
  | setViewportHeight (h : F)
  | setScrollOffset (o : F)
  | scrollBy (d : F)
  | select (id : Option String)
  | selectNext
  | selectPrevious

/-- Apply one `SOp`. -/
def SOp.apply (s : StreamState) : SOp → StreamState
  | .push item => s.push item
  | .update id c => s.update id c
  | .toggleExpanded id => s.toggle_expanded id
  | .clear => s.clear
  | .setViewportHeight h => s.set_viewport_height h
  | .setScrollOffset o => s.set_scroll_offset o
  | .scrollBy d => s.scroll_by d
  | .select id => s.select id
  | .selectNext => s.select_next
  | .selectPrevious => s.select_previous

set_option maxHeartbeats 1600000
set_option maxRecDepth 4096

/-- Running sums over plain rationals (the image of `scanSum` on
`nan`-free height lists). -/
def scanSumQ (a : ℚ) : List ℚ → List ℚ
  | [] => []
  | q :: t => (a + q) :: scanSumQ (a + q) t

/-- A stream state holding three approval cards (120 px each) whose height
cache is still dirty: used to exercise the auto-follow transitions. -/
def sampleStream (auto : Bool) : StreamState :=
  { items := [⟨"a", .approval, false⟩, ⟨"b", .approval, false⟩, ⟨"c", .approval, false⟩]
    item_index := fun x =>
      if x = "a" then some 0 else if x = "b" then some 1 else
      if x = "c" then some 2 else none
    selected_id := none
    scroll_offset := F.val 0
    viewport_height := F.val 100
    total_height := F.val 0
    auto_scroll := auto
    height_cache := []
    height_dirty := true }

/-- The clamp-bounds invariant of the spec, on `VirtualList`:
`0 <= scroll_offset <= max(0, total_height - viewport_height)` (stated
with the engine's own IEEE comparisons, so it fails outright on a NaN
offset). -/
def scrollInv (s : VirtualList) : Prop :=
  F.fle (F.val 0) s.scroll_offset = true ∧
  F.fle s.scroll_offset
    (F.fmax (F.fsub s.total_height s.viewport_height) (F.val 0)) = true

/-- The same clamp-bounds invariant on `StreamState`. -/
def scrollInvS (s : StreamState) : Prop :=
  F.fle (F.val 0) s.scroll_offset = true ∧
  F.fle s.scroll_offset
    (F.fmax (F.fsub s.total_height s.viewport_height) (F.val 0)) = true

/-- A clean six-item virtual list (heights 48, viewport 100, overscan 2)
whose cumulative index is fresh: used to exercise the range resolver. -/
def sampleVL : VirtualList :=
  { config := { VirtualListConfig.default with overscan := 2, default_item_height := F.val 48 }
    item_count := 6
    heights := List.replicate 6 (F.val 48)
    cumulative_heights :=
      [F.val 48, F.val 96, F.val 144, F.val 192, F.val 240, F.val 288]
    total_height := F.val 288
    scroll_offset := F.val 0
    viewport_height := F.val 100
    dirty := false }

/-- The matching clean stream state: six collapsed reasoning blocks
(48 px each), same cumulative cache, scroll and viewport as `sampleVL`. -/
def sampleStreamVR : StreamState :=
  { items := List.replicate 6 ⟨"r", .reasoning false, false⟩
    item_index := fun _ => none
    selected_id := none
    scroll_offset := F.val 0
    viewport_height := F.val 100
    total_height := F.val 288
    auto_scroll := false
    height_cache :=
      [F.val 48, F.val 96, F.val 144, F.val 192, F.val 240, F.val 288]
    height_dirty := false }

/-- A clean two-item list with zero viewport height and zero overscan:
the round-trip property fails on it. -/
def c7Zero : VirtualList :=
  { config := { VirtualListConfig.default with overscan := 0, default_item_height := F.val 50 }
    item_count := 2
    heights := [F.val 50, F.val 50]
    cumulative_heights := [F.val 50, F.val 100]
    total_height := F.val 100
    scroll_offset := F.val 0
    viewport_height := F.val 0
    dirty := false }

/-! ### End of definitions -/

/-! ### General lemmas about the embedded primitives -/

/-- Loop exit of `bsGo` (guarded unfolding, usable for evaluation). -/
theorem bsGo_stop (f : F → Option Ordering) (xs : List F) {l r : Nat}
    (h : ¬ l < r) : bsGo f xs l r = some (.inr l) := by
  rw [bsGo]
  simp [h]

/-- Loop step of `bsGo` (guarded unfolding, usable for evaluation). -/
theorem bsGo_step (f : F → Option Ordering) (xs : List F) {l r : Nat}
    (h : l < r) :
    bsGo f xs l r =
      match f (xs.getD (l + (r - l) / 2) (F.val 0)) with
      | none => none
      | some .lt => bsGo f xs (l + (r - l) / 2 + 1) r
      | some .gt => bsGo f xs l (l + (r - l) / 2)
      | some .eq => some (.inl (l + (r - l) / 2)) := by
  rw [bsGo]
  simp [h]

/-- `getD` after `set` at the same in-bounds index reads the new value. -/
theorem getD_set_eq (l : List F) (n : Nat) (a d : F) (h : n < l.length) :
    (l.set n a).getD n d = a := by
  induction l generalizing n with
  | nil => simp at h
  | cons x xs ih =>
    cases n with
    | zero => simp [List.set]
    | succ m =>
      simp only [List.set, List.getD, List.getElem?_cons_succ]
      have := ih m (by simpa using h)
      simpa [List.getD] using this

/-- `getD` with default `F.val 0` commutes with `List.map F.val`. -/
theorem getD_map_val (ys : List ℚ) (i : Nat) :
    (ys.map F.val).getD i (F.val 0) = F.val (ys.getD i 0) := by
  induction ys generalizing i with
  | nil => simp [List.getD]
  | cons y t ih =>
    cases i with
    | zero => simp [List.getD]
    | succ m => simpa [List.getD] using ih m

/-- `partial_cmp` only fails on `nan`. -/
theorem fcmp_ne_none {a b : F} (ha : a ≠ F.nan) (hb : b ≠ F.nan) :
    F.fcmp a b ≠ none := by
  cases a <;> cases b <;> simp_all [F.fcmp]

/-- The binary-search loop cannot panic if the comparator is total on
every probed value. -/
theorem bsGo_ne_none (f : F → Option Ordering) (xs : List F)
    (hf : ∀ i : Nat, f (xs.getD i (F.val 0)) ≠ none) :
    ∀ n l r, r - l ≤ n → bsGo f xs l r ≠ none := by
  intro n
  induction n with
  | zero =>
    intro l r hle
    rw [bsGo_stop f xs (by omega)]
    simp
  | succ m ih =>
    intro l r hle
    by_cases hlr : l < r
    · rw [bsGo_step f xs hlr]
      rcases hcv : f (xs.getD (l + (r - l) / 2) (F.val 0)) with _ | ov
      · exact absurd hcv (hf _)
      · have hm2 : (r - l) / 2 < r - l := Nat.div_lt_self (by omega) (by omega)
        cases ov with
        | lt => exact ih (l + (r - l) / 2 + 1) r (by omega)
        | gt => exact ih l (l + (r - l) / 2) (by omega)
        | eq => simp
    · rw [bsGo_stop f xs hlr]
      simp

/-- The merged binary search cannot panic when the probe offset and all
array entries are comparable (no `nan`). -/
theorem binarySearchIdx_ne_none (xs : List F) (offset : F)
    (hxs : ∀ x ∈ xs, x ≠ F.nan) (hoff : offset ≠ F.nan) :
    ∃ i, binarySearchIdx xs offset = some i := by
  have hf : ∀ i : Nat, F.fcmp (xs.getD i (F.val 0)) offset ≠ none := by
    intro i
    refine fcmp_ne_none ?_ hoff
    by_cases h : i < xs.length
    · have hx : xs.getD i (F.val 0) = xs.get ⟨i, h⟩ := by
        simp [List.getD, List.getElem?_eq_getElem h]
      rw [hx]
      exact hxs _ (xs.get_mem i h)
    · have hx : xs.getD i (F.val 0) = F.val 0 := by
        simp [List.getD, List.getElem?_eq_none (by omega : xs.length ≤ i)]
      rw [hx]
      simp
  have := bsGo_ne_none (fun h => F.fcmp h offset) xs hf xs.length 0 xs.length (by omega)
  unfold binarySearchIdx
  rcases h : bsGo (fun h => F.fcmp h offset) xs 0 xs.length with _ | r
  · exact absurd h this
  · rcases r with i | i <;> exact ⟨i, rfl⟩

/-! ### C10: frame effect of `clear` -/

/-- C10: `clear()` empties the items, the id→index map, the selection, the
height cache, and zeroes scroll offset, total height and the dirty flag,
while leaving `viewport_height` and `auto_scroll` at their pre-clear
values; a freshly constructed state has `auto_scroll = true`. -/
theorem C10_clear_frame_effect (s : StreamState) :
    (s.clear).items = [] ∧
    (s.clear).item_index = (fun _ => none) ∧
    (s.clear).selected_id = none ∧
    (s.clear).scroll_offset = F.val 0 ∧
    (s.clear).total_height = F.val 0 ∧
    (s.clear).height_cache = [] ∧
    (s.clear).height_dirty = false ∧
    (s.clear).viewport_height = s.viewport_height ∧
    (s.clear).auto_scroll = s.auto_scroll ∧
    StreamState.new.auto_scroll = true := by
  simp [StreamState.clear, StreamState.new]

/-! ### C9: selection navigation boundaries -/

/-- C9: with the last item selected, `select_next` stays on it; with the
first item selected, `select_previous` stays on it; with no selection,
`select_next` selects the first item and `select_previous` the last. -/
theorem C9_selection_boundaries (s : StreamState) (id : String)
    (hd : StreamItem) (tl : List StreamItem) :
    (s.selected_id = some id → s.item_index id = some (s.items.length - 1) →
      s.items ≠ [] → (s.select_next).selected_id = some id) ∧
    (s.selected_id = some id → s.item_index id = some 0 →
      (s.select_previous).selected_id = some id) ∧
    (s.selected_id = none → s.items = hd :: tl →
      (s.select_next).selected_id = some hd.id) ∧
    (s.selected_id = none → s.items = hd :: tl →
      (s.select_previous).selected_id =
        some (((hd :: tl).getLast (List.cons_ne_nil hd tl)).id)) := by
  refine ⟨?_, ?_, ?_, ?_⟩
  · intro hsel hidx hne
    have hlen : 0 < s.items.length := List.length_pos.mpr hne
    simp only [StreamState.select_next, hsel, hidx]
    rw [if_neg (by omega)]
  · intro hsel hidx
    simp [StreamState.select_previous, hsel, hidx]
  · intro hsel hcons
    simp [StreamState.select_next, hsel, hcons]
  · intro hsel hcons
    simp only [StreamState.select_previous, hsel, hcons]
    rw [List.getLast?_eq_getLast _ (List.cons_ne_nil hd tl)]
    simp

/-- C9 witness: a three-item state exercising all four boundary rules. -/
theorem C9_selection_boundaries_witness :
    (let s3 : StreamState :=
      { items := [⟨"a", .divider, false⟩, ⟨"b", .divider, false⟩, ⟨"c", .divider, false⟩]
        item_index := fun x =>
          if x = "a" then some 0 else if x = "b" then some 1 else
          if x = "c" then some 2 else none
        selected_id := some "c"
        scroll_offset := F.val 0
        viewport_height := F.val 600
        total_height := F.val 0
        auto_scroll := true
        height_cache := []
        height_dirty := false };
    (s3.select_next).selected_id = some "c") ∧
    (let s0 : StreamState :=
      { items := [⟨"a", .divider, false⟩, ⟨"b", .divider, false⟩]
        item_index := fun x => if x = "a" then some 0 else if x = "b" then some 1 else none
        selected_id := some "a"
        scroll_offset := F.val 0
        viewport_height := F.val 600
        total_height := F.val 0
        auto_scroll := true
        height_cache := []
        height_dirty := false };
    (s0.select_previous).selected_id = some "a") ∧
    (let sn : StreamState :=
      { items := [⟨"a", .divider, false⟩, ⟨"b", .divider, false⟩]
        item_index := fun x => if x = "a" then some 0 else if x = "b" then some 1 else none
        selected_id := none
        scroll_offset := F.val 0
        viewport_height := F.val 600
        total_height := F.val 0
        auto_scroll := true
        height_cache := []
        height_dirty := false };
    (sn.select_next).selected_id = some "a" ∧
    (sn.select_previous).selected_id = some "b") := by
  refine ⟨?_, ?_, ?_, ?_⟩
  · exact (C9_selection_boundaries _ "c" default []).1 rfl (by decide) (by decide)
  · exact (C9_selection_boundaries _ "a" default []).2.1 rfl (by decide)
  · exact (C9_selection_boundaries _ "x" ⟨"a", .divider, false⟩
      [⟨"b", .divider, false⟩]).2.2.1 rfl rfl
  · exact (C9_selection_boundaries _ "x" ⟨"a", .divider, false⟩
      [⟨"b", .divider, false⟩]).2.2.2 rfl rfl

/-! ### C8: `scroll_to_item` with an out-of-range index -/

/-- C8 counterexample: on `set_item_count(2)` (dirty state), the
out-of-range call `scroll_to_item(5)` leaves the scroll offset unchanged
but rebuilds the cumulative index, so the observable `total_height` query
changes from the stale `0` to the fresh `160`: the call is not a complete
no-op on observable query results. -/
theorem C8_scroll_to_item_oob_counterexample :
    (((VirtualList.new .default).set_item_count 2).item_count = 2) ∧
    ((VirtualList.new .default).set_item_count 2).total_height_q = F.val 0 ∧
    (((VirtualList.new .default).set_item_count 2).scroll_to_item 5).total_height_q
      = F.val 160 ∧
    ((VirtualList.new .default).set_item_count 2).total_height_q ≠
      (((VirtualList.new .default).set_item_count 2).scroll_to_item 5).total_height_q := by
  norm_num [VirtualList.new, VirtualList.set_item_count, VirtualList.scroll_to_item,
    VirtualList.ensure_calculated, VirtualList.ensure_calculated_immut,
    VirtualList.total_height_q, VirtualList.item_offset, VirtualListConfig.default,
    listResize, scanSum, foldSum, F.fadd, List.replicate]

/-- C8 (amended): `scroll_to_item(index)` with `index >= N` never moves the
scroll offset, and on a state whose dirty flag is clear it is a complete
no-op; on a dirty state its only effect is the lazy rebuild of the
cumulative index performed by `ensure_calculated` before the bounds
check. -/
theorem C8_scroll_to_item_oob (s : VirtualList) (idx : Nat)
    (hge : s.item_count ≤ idx) :
    (s.scroll_to_item idx).scroll_offset = s.scroll_offset ∧
    (s.dirty = false → s.scroll_to_item idx = s) := by
  by_cases hd : s.dirty <;>
    simp [VirtualList.scroll_to_item, VirtualList.ensure_calculated, hd, hge]

/-- C8 witness: out-of-range `scroll_to_item` on a clean empty list. -/
theorem C8_scroll_to_item_oob_witness :
    ((VirtualList.new .default).scroll_to_item 3).scroll_offset =
      (VirtualList.new .default).scroll_offset ∧
    ((VirtualList.new .default).dirty = false →
      (VirtualList.new .default).scroll_to_item 3 = VirtualList.new .default) :=
  C8_scroll_to_item_oob (VirtualList.new .default) 3 (by decide)

/-! ### C4: negative and NaN height input -/

/-- C4 counterexample: with one item at the default height `80`
(`min_item_height = 40`), `set_item_height(0, NaN)` leaves the slot at
`80`: the NaN is silently ignored, it is not clamped to
`min_item_height`. -/
theorem C4_nan_height_counterexample :
    (((VirtualList.new .default).set_item_count 1).set_item_height 0 F.nan).heights
      = [F.val 80] ∧
    (VirtualListConfig.default).min_item_height = F.val 40 ∧
    (F.val 80 : F) ≠ F.val 40 := by
  norm_num [VirtualList.new, VirtualList.set_item_count, VirtualList.set_item_height,
    VirtualList.setHeightOne, VirtualListConfig.default, listResize, List.replicate,
    F.fclamp, F.flt, F.fgt, F.fabs, F.fsub, F.fneg, F.fadd, List.getD]

/-- C4 (amended): a NaN height input leaves the state completely unchanged
(the Rust `clamp` returns NaN and the `> 0.5` epsilon test on NaN is
false), for the single setter and for the batched form alike, so NaN is
never stored and never poisons the cumulative sum; a negative height
input is clamped to `min_item_height` and stored (marking dirty) whenever
the clamped value differs from the stored one by more than `0.5`. -/
theorem C4_height_clamping (s : VirtualList) (idx : Nat)
    (pairs : List (Nat × F)) (q m old : ℚ) :
    (s.set_item_height idx F.nan = s) ∧
    ((∀ p ∈ pairs, p.2 = F.nan) → s.set_item_heights pairs = s) ∧
    (idx < s.heights.length →
      s.config.min_item_height = F.val m →
      q < m →
      s.heights.getD idx (F.val 0) = F.val old →
      1/2 < |old - m| →
      ((s.set_item_height idx (F.val q)).heights.getD idx (F.val 0) = F.val m ∧
        (s.set_item_height idx (F.val q)).dirty = true)) := by
  refine ⟨?_, ?_, ?_⟩
  · unfold VirtualList.set_item_height VirtualList.setHeightOne
    rcases hx : s.heights.getD idx (F.val 0) with _ | _ | _ | a <;>
      rcases hmin : s.config.min_item_height with _ | _ | _ | b <;>
        rcases hmax : s.config.max_item_height with _ | _ | _ | c <;>
          simp [F.fclamp, F.flt, F.fgt, F.fabs, F.fsub, F.fneg, F.fadd, hx]
  · intro hnan
    induction pairs with
    | nil => rfl
    | cons p t ih =>
      have hp : p.2 = F.nan := hnan p (by simp)
      have hone : VirtualList.setHeightOne s p.1 p.2 = s := by
        rw [hp]
        unfold VirtualList.setHeightOne
        rcases hx : s.heights.getD p.1 (F.val 0) with _ | _ | _ | a <;>
          rcases hmin : s.config.min_item_height with _ | _ | _ | b <;>
            rcases hmax : s.config.max_item_height with _ | _ | _ | c <;>
              simp [F.fclamp, F.flt, F.fgt, F.fabs, F.fsub, F.fneg, F.fadd, hx]
      show VirtualList.set_item_heights s (p :: t) = s
      unfold VirtualList.set_item_heights at *
      simp only [List.foldl_cons, hone]
      exact ih (fun x hx => hnan x (by simp [hx]))
  · intro hidx hmin hq hold heps
    unfold VirtualList.set_item_height VirtualList.setHeightOne
    have hcl : F.fclamp (F.val q) s.config.min_item_height s.config.max_item_height
        = F.val m := by
      rw [hmin]
      unfold F.fclamp
      rw [if_pos (by simp [F.flt, hq])]
    rw [hcl, hold]
    have hgt : F.fgt (F.fabs (F.fsub (F.val old) (F.val m))) (F.val (1/2)) = true := by
      simp [F.fgt, F.flt, F.fabs, F.fsub, F.fneg, F.fadd, heps]
      ring_nf
      ring_nf at heps
      linarith
    rw [if_pos hidx]
    simp only [hold] at hgt ⊢
    rw [if_pos hgt]
    exact ⟨getD_set_eq _ _ _ _ hidx, rfl⟩

/-- C4 witness: NaN is ignored (single and batched) and `-5` clamps to the
minimum `40` on a slot holding `80`. -/
theorem C4_height_clamping_witness :
    (((VirtualList.new .default).set_item_count 1).set_item_height 0 F.nan
      = (VirtualList.new .default).set_item_count 1) ∧
    (((VirtualList.new .default).set_item_count 1).set_item_heights [(0, F.nan)]
      = (VirtualList.new .default).set_item_count 1) ∧
    ((((VirtualList.new .default).set_item_count 1).set_item_height 0
        (F.val (-5))).heights.getD 0 (F.val 0) = F.val 40 ∧
      (((VirtualList.new .default).set_item_count 1).set_item_height 0
        (F.val (-5))).dirty = true) := by
  refine ⟨?_, ?_, ?_⟩
  · exact (C4_height_clamping ((VirtualList.new .default).set_item_count 1) 0 [] 0 0 0).1
  · exact (C4_height_clamping ((VirtualList.new .default).set_item_count 1) 0
      [(0, F.nan)] 0 0 0).2.1 (by simp)
  · refine (C4_height_clamping ((VirtualList.new .default).set_item_count 1) 0 [] (-5) 40
      80).2.2 ?_ ?_ (by norm_num) ?_ (by norm_num)
    · norm_num [VirtualList.new, VirtualList.set_item_count, VirtualListConfig.default,
        listResize, List.replicate]
    · norm_num [VirtualList.new, VirtualList.set_item_count, VirtualListConfig.default]
    · norm_num [VirtualList.new, VirtualList.set_item_count, VirtualListConfig.default,
        listResize, List.replicate, List.getD]

/-! ### C1: lazy rebuild discipline of the cumulative index -/

/-- C1 counterexample: after the mutation `set_item_count(1)` the dirty
flag is set and the heights hold the default `80`, yet the immediately
following `total_height` query returns the stale `0` (and leaves the flag
set): the read-only query did not rebuild the cumulative index, because
`ensure_calculated_immut` is a no-op. -/
theorem C1_stale_query_counterexample :
    ((VirtualList.new .default).set_item_count 1).dirty = true ∧
    foldSum (F.val 0) ((VirtualList.new .default).set_item_count 1).heights = F.val 80 ∧
    ((VirtualList.new .default).set_item_count 1).total_height_q = F.val 0 ∧
    ((VirtualList.new .default).set_item_count 1).total_height_q ≠
      foldSum (F.val 0) ((VirtualList.new .default).set_item_count 1).heights := by
  norm_num [VirtualList.new, VirtualList.set_item_count, VirtualList.total_height_q,
    VirtualList.ensure_calculated_immut, VirtualListConfig.default, listResize,
    List.replicate, foldSum, F.fadd]

/-- C1 (amended): the rebuild-and-clear step is performed by the mutating
scroll operations (which call `ensure_calculated`), not by the read-only
queries: after `set_scroll_offset` on any dirty state the flag is
cleared, the cumulative index equals the running sums of the current
heights, and the `total_height` query then answers the value computed
from the current heights. -/
theorem C1_mutating_ops_rebuild (s : VirtualList) (o : F) (hd : s.dirty = true) :
    (s.set_scroll_offset o).dirty = false ∧
    (s.set_scroll_offset o).cumulative_heights = scanSum (F.val 0) s.heights ∧
    (s.set_scroll_offset o).total_height_q = foldSum (F.val 0) s.heights := by
  simp [VirtualList.set_scroll_offset, VirtualList.ensure_calculated,
    VirtualList.total_height_q, VirtualList.ensure_calculated_immut, hd]

/-- C1 witness: the rebuild happens on the first scroll mutation after
`set_item_count(1)`. -/
theorem C1_mutating_ops_rebuild_witness :
    (((VirtualList.new .default).set_item_count 1).set_scroll_offset (F.val 0)).dirty
      = false ∧
    (((VirtualList.new .default).set_item_count 1).set_scroll_offset
        (F.val 0)).cumulative_heights
      = scanSum (F.val 0) ((VirtualList.new .default).set_item_count 1).heights ∧
    (((VirtualList.new .default).set_item_count 1).set_scroll_offset
        (F.val 0)).total_height_q
      = foldSum (F.val 0) ((VirtualList.new .default).set_item_count 1).heights :=
  C1_mutating_ops_rebuild ((VirtualList.new .default).set_item_count 1) (F.val 0)
    (by norm_num [VirtualList.new, VirtualList.set_item_count, VirtualListConfig.default])

/-- `recalculate_heights_if_dirty` only touches the height cache, the
total height and the dirty flag. -/
@[simp]
theorem recalc_auto_scroll (s : StreamState) :
    (s.recalculate_heights_if_dirty).auto_scroll = s.auto_scroll := by
  unfold StreamState.recalculate_heights_if_dirty
  split <;> rfl

/-- `recalculate_heights_if_dirty` does not move the scroll offset. -/
@[simp]
theorem recalc_scroll_offset (s : StreamState) :
    (s.recalculate_heights_if_dirty).scroll_offset = s.scroll_offset := by
  unfold StreamState.recalculate_heights_if_dirty
  split <;> rfl

/-- `recalculate_heights_if_dirty` does not change the viewport height. -/
@[simp]
theorem recalc_viewport_height (s : StreamState) :
    (s.recalculate_heights_if_dirty).viewport_height = s.viewport_height := by
  unfold StreamState.recalculate_heights_if_dirty
  split <;> rfl

/-- `recalculate_heights_if_dirty` does not change the items. -/
@[simp]
theorem recalc_items (s : StreamState) :
    (s.recalculate_heights_if_dirty).items = s.items := by
  unfold StreamState.recalculate_heights_if_dirty
  split <;> rfl

/-! ### C6: the auto-follow state machine -/

/-- C6: `push` while auto-follow is ON re-invokes `scroll_to_bottom`
(landing at the maximum scroll) and stays ON; `set_scroll_offset` whose
clamped result lands more than the 50-unit tolerance below the maximum
turns the flag OFF, and otherwise leaves it unchanged;
`scroll_to_bottom` always turns it ON; no other public mutator (`push`,
`update`, `toggle_expanded`, `clear`, `set_viewport_height`,
`set_scroll_offset`, `scroll_by`, `select`, `select_next`,
`select_previous`) ever turns it from OFF to ON — in particular scrolling
back near the bottom does not re-engage it. -/
theorem C6_auto_follow_state_machine (s : StreamState) (it : StreamItem) (o : F)
    (op : SOp) :
    (s.auto_scroll = true →
      (s.push it).auto_scroll = true ∧
      (s.push it).scroll_offset =
        F.fmax (F.fsub (s.push it).total_height (s.push it).viewport_height) (F.val 0)) ∧
    (F.flt (s.set_scroll_offset o).scroll_offset
        (F.fsub
          (F.fmax
            (F.fsub (s.set_scroll_offset o).total_height
              (s.set_scroll_offset o).viewport_height)
            (F.val 0))
          (F.val 50)) = true →
      (s.set_scroll_offset o).auto_scroll = false) ∧
    (F.flt (s.set_scroll_offset o).scroll_offset
        (F.fsub
          (F.fmax
            (F.fsub (s.set_scroll_offset o).total_height
              (s.set_scroll_offset o).viewport_height)
            (F.val 0))
          (F.val 50)) = false →
      (s.set_scroll_offset o).auto_scroll = s.auto_scroll) ∧
    ((s.scroll_to_bottom).auto_scroll = true) ∧
    (s.auto_scroll = false → (op.apply s).auto_scroll = false) := by
  refine ⟨?_, ?_, ?_, ?_, ?_⟩
  · intro h
    simp [StreamState.push, h, StreamState.scroll_to_bottom,
      StreamState.recalculate_heights_if_dirty]
  · simp only [StreamState.set_scroll_offset]
    split
    · intro _
      rfl
    · intro h
      simp only at h
      simp_all
  · simp only [StreamState.set_scroll_offset]
    split
    · intro h
      simp only at h
      simp_all
    · intro _
      simp
  · simp [StreamState.scroll_to_bottom]
  · intro hoff
    cases op with
    | push item =>
      simp [SOp.apply, StreamState.push, hoff]
    | update id c =>
      simp only [SOp.apply]
      unfold StreamState.update
      split <;> simp [hoff]
    | toggleExpanded id =>
      simp only [SOp.apply]
      unfold StreamState.toggle_expanded
      split <;> simp [hoff]
    | clear => simpa [SOp.apply, StreamState.clear] using hoff
    | setViewportHeight h => simpa [SOp.apply, StreamState.set_viewport_height] using hoff
    | setScrollOffset o =>
      simp only [SOp.apply, StreamState.set_scroll_offset]
      split <;> simp [hoff]
    | scrollBy d =>
      simp only [SOp.apply, StreamState.scroll_by, StreamState.set_scroll_offset]
      split <;> simp [hoff]
    | select id => simpa [SOp.apply, StreamState.select] using hoff
    | selectNext => simpa [SOp.apply, StreamState.select_next] using hoff
    | selectPrevious => simpa [SOp.apply, StreamState.select_previous] using hoff

/-- C6 witness: on the three-item dirty stream (total 360, viewport 100,
max scroll 260) — pushing while ON stays ON at the bottom;
`set_scroll_offset(0)` (landing 210 below max) turns ON into OFF;
`set_scroll_offset(260)` (at the max) leaves the flag unchanged;
`scroll_to_bottom` turns it ON; `select_next` while OFF stays OFF. -/
theorem C6_auto_follow_state_machine_witness :
    (((sampleStream true).push ⟨"d", .approval, false⟩).auto_scroll = true ∧
      ((sampleStream true).push ⟨"d", .approval, false⟩).scroll_offset =
        F.fmax
          (F.fsub ((sampleStream true).push ⟨"d", .approval, false⟩).total_height
            ((sampleStream true).push ⟨"d", .approval, false⟩).viewport_height)
          (F.val 0)) ∧
    ((sampleStream true).set_scroll_offset (F.val 0)).auto_scroll = false ∧
    ((sampleStream true).set_scroll_offset (F.val 260)).auto_scroll =
      (sampleStream true).auto_scroll ∧
    ((sampleStream false).scroll_to_bottom).auto_scroll = true ∧
    ((SOp.apply (sampleStream false) .selectNext).auto_scroll = false) := by
  refine ⟨?_, ?_, ?_, ?_, ?_⟩
  · exact (C6_auto_follow_state_machine (sampleStream true) ⟨"d", .approval, false⟩
      (F.val 0) .selectNext).1 rfl
  · refine (C6_auto_follow_state_machine (sampleStream true) ⟨"d", .approval, false⟩
      (F.val 0) .selectNext).2.1 ?_
    norm_num [sampleStream, StreamState.set_scroll_offset,
      StreamState.recalculate_heights_if_dirty, StreamItem.estimated_height, foldSum,
      scanSum, F.fadd, F.fsub, F.fneg, F.fmax, F.fclamp, F.flt]
  · refine (C6_auto_follow_state_machine (sampleStream true) ⟨"d", .approval, false⟩
      (F.val 260) .selectNext).2.2.1 ?_
    norm_num [sampleStream, StreamState.set_scroll_offset,
      StreamState.recalculate_heights_if_dirty, StreamItem.estimated_height, foldSum,
      scanSum, F.fadd, F.fsub, F.fneg, F.fmax, F.fclamp, F.flt]
  · exact (C6_auto_follow_state_machine (sampleStream false) ⟨"d", .approval, false⟩
      (F.val 0) .selectNext).2.2.2.1
  · exact (C6_auto_follow_state_machine (sampleStream false) ⟨"d", .approval, false⟩
      (F.val 0) .selectNext).2.2.2.2 rfl

/-! ### C5: scroll-offset clamp bounds -/

/-- The engine's `max_scroll` expression is never negative (and never
NaN): `f32::max` with a real second operand absorbs a NaN difference. -/
theorem fmax_zero_nonneg (z : F) :
    F.fle (F.val 0) (F.fmax z (F.val 0)) = true ∧ F.fmax z (F.val 0) ≠ F.nan := by
  cases z with
  | nan => simp [F.fmax, F.fle]
  | pinf => simp [F.fmax, F.flt, F.fle]
  | ninf => simp [F.fmax, F.flt, F.fle]
  | val q =>
    simp only [F.fmax, F.flt]
    split <;> rename_i h
    · simp [F.fle]
    · have hq : (0 : ℚ) ≤ q := le_of_not_lt (by simpa using h)
      simp [F.fle, hq]

/-- `fle` is reflexive away from NaN. -/
theorem fle_refl_ne_nan (x : F) (hx : x ≠ F.nan) : F.fle x x = true := by
  cases x <;> simp_all [F.fle]

/-- Rust `clamp(0.0, hi)` of a non-NaN value lands in `[0, hi]` whenever
`0 <= hi`. -/
theorem fclamp_zero_bounds (o hi : F) (ho : o ≠ F.nan)
    (hhi : F.fle (F.val 0) hi = true) :
    F.fle (F.val 0) (F.fclamp o (F.val 0) hi) = true ∧
    F.fle (F.fclamp o (F.val 0) hi) hi = true := by
  cases o with
  | nan => exact absurd rfl ho
  | pinf =>
    cases hi <;> simp_all [F.fclamp, F.flt, F.fle]
  | ninf =>
    cases hi <;> simp_all [F.fclamp, F.flt, F.fle]
  | val a =>
    cases hi with
    | nan => simp_all [F.fle]
    | pinf =>
      by_cases ha : a < 0
      · simp [F.fclamp, F.flt, F.fle, ha]
      · simp [F.fclamp, F.flt, F.fle, ha, le_of_not_lt ha]
    | ninf => simp_all [F.fle]
    | val b =>
      have hb : (0 : ℚ) ≤ b := by simpa [F.fle] using hhi
      by_cases ha : a < 0
      · simp [F.fclamp, F.flt, F.fle, ha, hb]
      · by_cases hba : b < a
        · simp [F.fclamp, F.flt, F.fle, ha, hba, hb]
        · simp [F.fclamp, F.flt, F.fle, ha, hba, le_of_not_lt ha, le_of_not_lt hba]

/-- C5 (amended): for every state and every non-NaN argument, the clamped
scroll mutators re-establish `0 <= scroll_offset <= max(0, total_height -
viewport_height)`: `set_scroll_offset` with a non-NaN offset (infinities
included), `scroll_to_bottom` unconditionally, and `scroll_by` whenever
the offset it passes on is not NaN — on both `VirtualList` and
`StreamState`.  (`scroll_to_item` does not clamp and is excluded; see the
counterexample.) -/
theorem C5_scroll_clamp_bounds (s : VirtualList) (ss : StreamState) (o d : F) :
    (o ≠ F.nan → scrollInv (s.set_scroll_offset o)) ∧
    scrollInv s.scroll_to_bottom ∧
    (F.fadd s.scroll_offset (F.fmul d s.config.scroll_speed) ≠ F.nan →
      scrollInv (s.scroll_by d)) ∧
    (o ≠ F.nan → scrollInvS (ss.set_scroll_offset o)) ∧
    scrollInvS ss.scroll_to_bottom ∧
    (F.fadd ss.scroll_offset d ≠ F.nan → scrollInvS (ss.scroll_by d)) := by
  have hvl : ∀ (t : VirtualList) (x : F), x ≠ F.nan →
      scrollInv (t.set_scroll_offset x) := by
    intro t x hx
    unfold VirtualList.set_scroll_offset scrollInv
    have hm := fmax_zero_nonneg
      (F.fsub (t.ensure_calculated).total_height (t.ensure_calculated).viewport_height)
    exact fclamp_zero_bounds x _ hx hm.1
  have hss : ∀ (t : StreamState) (x : F), x ≠ F.nan →
      scrollInvS (t.set_scroll_offset x) := by
    intro t x hx
    unfold StreamState.set_scroll_offset scrollInvS
    have hm := fmax_zero_nonneg
      (F.fsub (t.recalculate_heights_if_dirty).total_height
        (t.recalculate_heights_if_dirty).viewport_height)
    have hb := fclamp_zero_bounds x _ hx hm.1
    dsimp only
    split <;> exact hb
  refine ⟨fun ho => hvl s o ho, ?_, fun hb => hvl s _ hb,
    fun ho => hss ss o ho, ?_, fun hb => hss ss _ hb⟩
  · unfold VirtualList.scroll_to_bottom scrollInv
    have hm := fmax_zero_nonneg
      (F.fsub (s.ensure_calculated).total_height (s.ensure_calculated).viewport_height)
    exact ⟨hm.1, fle_refl_ne_nan _ hm.2⟩
  · unfold StreamState.scroll_to_bottom scrollInvS
    have hm := fmax_zero_nonneg
      (F.fsub (ss.recalculate_heights_if_dirty).total_height
        (ss.recalculate_heights_if_dirty).viewport_height)
    exact ⟨hm.1, fle_refl_ne_nan _ hm.2⟩

/-- C5 witness: the clamp bounds after concrete calls on the default list
and the three-item stream. -/
theorem C5_scroll_clamp_bounds_witness :
    scrollInv ((VirtualList.new .default).set_scroll_offset (F.val 1000)) ∧
    scrollInv (VirtualList.new .default).scroll_to_bottom ∧
    scrollInv ((VirtualList.new .default).scroll_by (F.val 3)) ∧
    scrollInvS ((sampleStream true).set_scroll_offset F.pinf) ∧
    scrollInvS (sampleStream true).scroll_to_bottom ∧
    scrollInvS ((sampleStream true).scroll_by (F.val (-7))) := by
  have h := C5_scroll_clamp_bounds (VirtualList.new .default) (sampleStream true)
    (F.val 1000) (F.val 3)
  have h2 := C5_scroll_clamp_bounds (VirtualList.new .default) (sampleStream true)
    F.pinf (F.val (-7))
  refine ⟨h.1 (by simp), h.2.1, ?_, h2.2.2.2.1 (by simp), h.2.2.2.2.1, ?_⟩
  · refine h.2.2.1 ?_
    have hv : (VirtualList.new .default).scroll_offset.fadd
        ((F.val 3).fmul (VirtualList.new .default).config.scroll_speed) = F.val 120 := by
      norm_num [VirtualList.new, VirtualListConfig.default, F.fmul, F.fadd]
    rw [hv]
    simp
  · refine h2.2.2.2.2.2 ?_
    have hv : (sampleStream true).scroll_offset.fadd (F.val (-7)) = F.val (-7) := by
      norm_num [sampleStream, F.fadd]
    rw [hv]
    simp

/-- C5 counterexample: (i) `set_scroll_offset(NaN)` stores NaN (Rust
`clamp` passes NaN through), violating `0 <= scroll_offset`; (ii) after
heights shrink, `scroll_to_item` assigns an unclamped offset above the
new maximum scroll: on four items shrunk from 80 to 40 with viewport
200, the offset ends at 40 while `max(0, total - viewport) = 0`. -/
theorem C5_scroll_clamp_bounds_counterexample :
    (((VirtualList.new .default).set_scroll_offset F.nan).scroll_offset = F.nan ∧
      F.fle (F.val 0)
        ((VirtualList.new .default).set_scroll_offset F.nan).scroll_offset = false) ∧
    (let l4 :=
      (((((VirtualList.new .default).set_item_count 4).set_viewport_height
        (F.val 200)).set_scroll_offset (F.val 120)).set_item_heights
          [(0, F.val 40), (1, F.val 40), (2, F.val 40), (3, F.val 40)]).scroll_to_item 1
    l4.scroll_offset = F.val 40 ∧
    F.fmax (F.fsub l4.total_height l4.viewport_height) (F.val 0) = F.val 0 ∧
    F.fle l4.scroll_offset
      (F.fmax (F.fsub l4.total_height l4.viewport_height) (F.val 0)) = false) := by
  constructor
  · norm_num [VirtualList.new, VirtualList.set_scroll_offset, VirtualList.ensure_calculated,
      VirtualListConfig.default, F.fclamp, F.flt, F.fle, F.fsub, F.fneg, F.fadd, F.fmax,
      foldSum, scanSum]
  · norm_num [VirtualList.new, VirtualList.set_item_count, VirtualList.set_viewport_height,
      VirtualList.set_scroll_offset, VirtualList.set_item_heights, VirtualList.setHeightOne,
      VirtualList.scroll_to_item, VirtualList.item_offset, VirtualList.ensure_calculated,
      VirtualList.ensure_calculated_immut, VirtualListConfig.default, listResize,
      List.replicate, List.getD, foldSum, scanSum, F.fclamp, F.flt, F.fgt, F.fle, F.fsub,
      F.fneg, F.fadd, F.fmax, F.fabs]

/-! ### C3: totality / the binary-search comparator and NaN -/

/-- `VirtualList::find_item_at_offset` cannot panic when the offset and
all cached cumulative heights are comparable. -/
theorem vl_find_total (s : VirtualList) (off : F)
    (hcum : ∀ x ∈ s.cumulative_heights, x ≠ F.nan) (hoff : off ≠ F.nan) :
    ∃ i, s.find_item_at_offset off = some i := by
  unfold VirtualList.find_item_at_offset
  by_cases he : s.cumulative_heights.isEmpty
  · exact ⟨0, by simp [he]⟩
  · obtain ⟨i, hi⟩ := binarySearchIdx_ne_none s.cumulative_heights off hcum hoff
    exact ⟨min i (s.item_count - 1), by simp [he, hi]⟩

/-- `StreamState::find_item_at_offset` cannot panic when the offset and
all cached cumulative heights are comparable. -/
theorem ss_find_total (s : StreamState) (off : F)
    (hcum : ∀ x ∈ s.height_cache, x ≠ F.nan) (hoff : off ≠ F.nan) :
    ∃ i, s.find_item_at_offset off = some i := by
  unfold StreamState.find_item_at_offset
  by_cases he : s.height_cache.isEmpty
  · exact ⟨0, by simp [he]⟩
  · obtain ⟨i, hi⟩ := binarySearchIdx_ne_none s.height_cache off hcum hoff
    exact ⟨i, by simp [he, hi]⟩

/-- C3 counterexample: the engine is not total — after `set_item_count(2)`
and a scroll (which builds the cumulative index), setting a NaN viewport
makes `visible_range` evaluate `partial_cmp(cum[i], scroll+viewport)` on
an incomparable pair, and the `unwrap` panics (modelled as `none`); a NaN
scroll offset stored by `set_scroll_offset(NaN)` panics the same way. -/
theorem C3_totality_counterexample :
    (((((VirtualList.new .default).set_item_count 2).set_scroll_offset
        (F.val 0)).set_viewport_height F.nan).visible_range = none) ∧
    ((((VirtualList.new .default).set_item_count 2).set_scroll_offset
        (F.val 0)).set_scroll_offset F.nan).visible_range = none := by
  constructor <;>
    norm_num [VirtualList.new, VirtualList.set_item_count, VirtualList.set_scroll_offset,
      VirtualList.set_viewport_height, VirtualList.ensure_calculated,
      VirtualList.ensure_calculated_immut, VirtualList.visible_range,
      VirtualList.item_offset, VirtualList.find_item_at_offset, VirtualListConfig.default,
      binarySearchIdx, bsGo_step, bsGo_stop, scanSum, foldSum, listResize,
      F.fadd, F.fcmp, F.fsub, F.fneg, F.fmax, F.fclamp, F.flt, List.replicate, List.getD,
      Nat.min_def]

/-- C3 (amended): the stored heights and cumulative heights are NaN-free
by construction, and every query is panic-free provided no NaN reaches
the binary-search comparator: whenever the stored scroll offset and the
sum `scroll_offset + viewport_height` are not NaN (and the cumulative
cache is NaN-free), `visible_range` returns a value on both
implementations; all remaining operations are total functions of the
embedding.  A NaN viewport height or a NaN stored scroll offset escapes
these hypotheses and panics the comparator's `unwrap`. -/
theorem C3_queries_total (s : VirtualList) (ss : StreamState)
    (h1 : ∀ x ∈ s.cumulative_heights, x ≠ F.nan)
    (h2 : s.scroll_offset ≠ F.nan)
    (h3 : F.fadd s.scroll_offset s.viewport_height ≠ F.nan)
    (h4 : ∀ x ∈ ss.height_cache, x ≠ F.nan)
    (h5 : ss.scroll_offset ≠ F.nan)
    (h6 : F.fadd ss.scroll_offset ss.viewport_height ≠ F.nan) :
    (∃ r, s.visible_range = some r) ∧ (∃ p, ss.visible_range = some p) := by
  constructor
  · unfold VirtualList.visible_range VirtualList.ensure_calculated_immut
    by_cases hc : s.item_count = 0
    · rw [if_pos hc]
      exact ⟨_, rfl⟩
    · obtain ⟨i1, hi1⟩ := vl_find_total s s.scroll_offset h1 h2
      obtain ⟨i2, hi2⟩ := vl_find_total s (F.fadd s.scroll_offset s.viewport_height) h1 h3
      rw [if_neg hc, hi1, hi2]
      exact ⟨_, rfl⟩
  · unfold StreamState.visible_range StreamState.recalculate_heights_if_dirty_immut
    by_cases hc : ss.items.isEmpty
    · rw [if_pos hc]
      exact ⟨_, rfl⟩
    · obtain ⟨i1, hi1⟩ := ss_find_total ss ss.scroll_offset h4 h5
      obtain ⟨i2, hi2⟩ := ss_find_total ss (F.fadd ss.scroll_offset ss.viewport_height) h4 h6
      rw [if_neg hc, hi1, hi2]
      exact ⟨_, rfl⟩

/-- C3 witness: the clean six-item states satisfy the comparability
hypotheses and their `visible_range` succeeds. -/
theorem C3_queries_total_witness :
    (∃ r, sampleVL.visible_range = some r) ∧
    (∃ p, sampleStreamVR.visible_range = some p) := by
  refine C3_queries_total sampleVL sampleStreamVR ?_ ?_ ?_ ?_ ?_ ?_
  · intro x hx
    simp only [sampleVL] at hx
    fin_cases hx <;> simp
  · simp [sampleVL]
  · simp [sampleVL, F.fadd]
  · intro x hx
    simp only [sampleStreamVR] at hx
    fin_cases hx <;> simp
  · simp [sampleStreamVR]
  · simp [sampleStreamVR, F.fadd]

/-! ### C2: the two coexisting virtualization implementations -/

/-- C2 counterexample: on identical inputs (six items of height 48,
cumulative cache fresh, scroll 0, viewport 100, overscan = buffer = 2)
the generic list returns the range `[0, 5)` but the stream state returns
`[0, 4)`: `VirtualList` computes `end = min(N, end_idx + 1 + overscan)`
while `StreamState` computes `end = min(N, end_idx + buffer)` — the
`+ 1` is missing, so the two implementations are not equivalent. -/
theorem C2_range_equivalence_counterexample :
    sampleVL.item_count = sampleStreamVR.items.length ∧
    sampleVL.cumulative_heights = sampleStreamVR.height_cache ∧
    sampleVL.scroll_offset = sampleStreamVR.scroll_offset ∧
    sampleVL.viewport_height = sampleStreamVR.viewport_height ∧
    sampleVL.config.overscan = 2 ∧
    sampleVL.visible_range = some ⟨0, 5, F.val 0⟩ ∧
    sampleStreamVR.visible_range = some (0, 4) ∧
    (5 : Nat) ≠ 4 := by
  refine ⟨by simp [sampleVL, sampleStreamVR], by simp [sampleVL, sampleStreamVR],
    by simp [sampleVL, sampleStreamVR], by simp [sampleVL, sampleStreamVR],
    by simp [sampleVL], ?_, ?_, by simp⟩
  · norm_num [sampleVL, VirtualList.visible_range, VirtualList.find_item_at_offset,
      VirtualList.ensure_calculated_immut, VirtualList.item_offset,
      VirtualListConfig.default, binarySearchIdx, bsGo_step, bsGo_stop, F.fadd, F.fcmp,
      List.getD, Nat.min_def]
  · norm_num [sampleStreamVR, StreamState.visible_range, StreamState.find_item_at_offset,
      StreamState.recalculate_heights_if_dirty_immut, binarySearchIdx, bsGo_step,
      bsGo_stop, F.fadd, F.fcmp, List.getD, List.replicate, Nat.min_def]

/-- C2 (amended): on identical inputs (same cumulative array, item count,
scroll offset and viewport height, with `overscan = 2` matching the
fixed buffer) and with both binary searches succeeding, the two
implementations return the same `start`, but `VirtualList`'s exclusive
end is `min(N, end_idx + 1 + overscan)` while `StreamState`'s is
`min(N, end_idx + buffer)`: one larger wherever the bound `N` does not
clamp both. -/
theorem C2_range_equivalence (svl : VirtualList) (sss : StreamState) (r e : Nat)
    (hcum : svl.cumulative_heights = sss.height_cache)
    (hn : svl.item_count = sss.items.length)
    (ho : svl.scroll_offset = sss.scroll_offset)
    (hv : svl.viewport_height = sss.viewport_height)
    (hov : svl.config.overscan = 2)
    (hn0 : 0 < svl.item_count)
    (hne : svl.cumulative_heights.isEmpty = false)
    (hr : binarySearchIdx svl.cumulative_heights svl.scroll_offset = some r)
    (hrn : r ≤ svl.item_count - 1)
    (he : binarySearchIdx svl.cumulative_heights
      (F.fadd svl.scroll_offset svl.viewport_height) = some e) :
    ∃ bV bS soff,
      svl.visible_range = some ⟨r - 2, bV, soff⟩ ∧
      sss.visible_range = some (r - 2, bS) ∧
      (bV = bS + 1 ∨ (bV = svl.item_count ∧ bS = svl.item_count)) := by
  have hvl : svl.visible_range =
      some ⟨r - 2, min (min e (svl.item_count - 1) + 1 + 2) svl.item_count,
        svl.item_offset (r - 2)⟩ := by
    unfold VirtualList.visible_range VirtualList.find_item_at_offset
      VirtualList.ensure_calculated_immut
    rw [if_neg (by omega), hne, hr, he]
    simp only [Bool.false_eq_true, if_false, hov]
    rw [min_eq_left hrn, min_assoc, min_self]
  have hnss : sss.items.isEmpty = false := by
    rcases hitems : sss.items with _ | ⟨a, t⟩
    · rw [hitems] at hn
      simp at hn
      omega
    · simp
  have hss : sss.visible_range =
      some (r - 2, min (min e (sss.items.length - 1) + 2) sss.items.length) := by
    unfold StreamState.visible_range StreamState.find_item_at_offset
      StreamState.recalculate_heights_if_dirty_immut
    dsimp only
    rw [← hcum, ← ho, ← hv, hnss, hne, hr, he]
    simp
  refine ⟨_, _, _, hvl, hss, ?_⟩
  rw [← hn]
  have hk : min e (svl.item_count - 1) ≤ svl.item_count - 1 := min_le_right _ _
  omega

/-- C2 witness: the amended relation at the six-item states (start 0 for
both; ends 5 and 4). -/
theorem C2_range_equivalence_witness :
    ∃ bV bS soff,
      sampleVL.visible_range = some ⟨0 - 2, bV, soff⟩ ∧
      sampleStreamVR.visible_range = some (0 - 2, bS) ∧
      (bV = bS + 1 ∨ (bV = sampleVL.item_count ∧ bS = sampleVL.item_count)) := by
  refine C2_range_equivalence sampleVL sampleStreamVR 0 2 ?_ ?_ ?_ ?_ ?_ ?_ ?_ ?_ ?_ ?_
  · simp [sampleVL, sampleStreamVR]
  · simp [sampleVL, sampleStreamVR]
  · simp [sampleVL, sampleStreamVR]
  · simp [sampleVL, sampleStreamVR]
  · simp [sampleVL]
  · simp [sampleVL]
  · simp [sampleVL]
  · norm_num [sampleVL, binarySearchIdx, bsGo_step, bsGo_stop, F.fcmp, List.getD]
  · simp [sampleVL]
  · norm_num [sampleVL, binarySearchIdx, bsGo_step, bsGo_stop, F.fadd, F.fcmp, List.getD]

/-! ### C7: offset/index round trip -/

/-- `getD` with default `0` agrees with `get` in bounds. -/
theorem getDq_eq_get (ys : List ℚ) (i : Nat) (h : i < ys.length) :
    ys.getD i 0 = ys.get ⟨i, h⟩ := by
  simp [List.getD, List.getElem?_eq_getElem h]

/-- `scanSum` over `nan`-free heights is `scanSumQ` under the value map. -/
theorem scanSum_map_val (qs : List ℚ) :
    ∀ a, scanSum (F.val a) (qs.map F.val) = (scanSumQ a qs).map F.val := by
  induction qs with
  | nil => intro a; rfl
  | cons q t ih =>
    intro a
    simp only [List.map_cons, scanSum, scanSumQ, F.fadd]
    rw [ih]

/-- `scanSumQ` preserves length. -/
theorem scanSumQ_length (qs : List ℚ) : ∀ a, (scanSumQ a qs).length = qs.length := by
  induction qs with
  | nil => intro a; rfl
  | cons q t ih => intro a; simp [scanSumQ, ih]

/-- Entry `i` of `scanSumQ a qs` is `a` plus the sum of the first `i + 1`
heights. -/
theorem scanSumQ_get (qs : List ℚ) :
    ∀ (a : ℚ) (i : Nat) (h : i < (scanSumQ a qs).length),
      (scanSumQ a qs).get ⟨i, h⟩ = a + (qs.take (i + 1)).sum := by
  induction qs with
  | nil => intro a i h; simp [scanSumQ] at h
  | cons q t ih =>
    intro a i h
    cases i with
    | zero => simp [scanSumQ]
    | succ m =>
      have hm : m < (scanSumQ (a + q) t).length := by
        simpa [scanSumQ] using h
      have := ih (a + q) m hm
      simp only [scanSumQ, List.get_cons_succ, this, List.take, List.sum_cons]
      ring

/-- Strictly longer prefixes of a positive list have strictly larger
sums. -/
theorem sum_take_lt_of_pos (qs : List ℚ) (hpos : ∀ q ∈ qs, 0 < q)
    (i j : Nat) (hij : i < j) (hj : j ≤ qs.length) :
    (qs.take i).sum < (qs.take j).sum := by
  have hsplit : qs.take j = qs.take i ++ ((qs.drop i).take (j - i)) := by
    rw [← List.take_add]
    congr 1
    omega
  rw [hsplit, List.sum_append]
  have hne : (qs.drop i).take (j - i) ≠ [] := by
    have hlen : ((qs.drop i).take (j - i)).length = min (j - i) (qs.length - i) := by
      simp
    intro hnil
    rw [hnil] at hlen
    simp at hlen
    omega
  have hposmid : 0 < ((qs.drop i).take (j - i)).sum := by
    refine List.sum_pos _ ?_ hne
    intro q hq
    exact hpos q (List.mem_of_mem_drop (List.mem_of_mem_take hq))
  linarith

/-- Longer prefixes of a nonnegative list have no smaller sums. -/
theorem sum_take_le_of_pos (qs : List ℚ) (hpos : ∀ q ∈ qs, 0 < q)
    (i j : Nat) (hij : i ≤ j) :
    (qs.take i).sum ≤ (qs.take j).sum := by
  by_cases hcase : j ≤ qs.length
  · rcases eq_or_lt_of_le hij with rfl | hlt
    · exact le_refl _
    · exact le_of_lt (sum_take_lt_of_pos qs hpos i j hlt hcase)
  · have h1 : qs.take j = qs := List.take_of_length_le (by omega)
    have h2 : qs.take i ++ qs.drop i = qs := List.take_append_drop i qs
    have h3 : (qs.take i).sum + (qs.drop i).sum = qs.sum := by
      rw [← List.sum_append, h2]
    have h4 : 0 ≤ (qs.drop i).sum :=
      List.sum_nonneg (fun q hq => le_of_lt (hpos q (List.mem_of_mem_drop hq)))
    rw [h1]
    linarith

/-- Split characterization of the Rust binary-search loop on a strictly
increasing rational array: it lands on the unique split point `j` with
all entries below `j` strictly smaller than the probe and all entries
from `j` on at least the probe. -/
theorem bsGo_split (ys : List ℚ) (x : ℚ)
    (hmono : ∀ (i j : Nat) (hi : i < ys.length) (hj : j < ys.length),
      i < j → ys.get ⟨i, hi⟩ < ys.get ⟨j, hj⟩) :
    ∀ (n l r : Nat), r - l ≤ n → l ≤ r → r ≤ ys.length →
      (∀ (k : Nat) (hk : k < ys.length), k < l → ys.get ⟨k, hk⟩ < x) →
      (∀ (k : Nat) (hk : k < ys.length), r ≤ k → x ≤ ys.get ⟨k, hk⟩) →
      ∃ j,
        (bsGo (fun h => F.fcmp h (F.val x)) (ys.map F.val) l r = some (.inl j) ∨
          bsGo (fun h => F.fcmp h (F.val x)) (ys.map F.val) l r = some (.inr j)) ∧
        j ≤ ys.length ∧
        (∀ (k : Nat) (hk : k < ys.length), k < j → ys.get ⟨k, hk⟩ < x) ∧
        (∀ (k : Nat) (hk : k < ys.length), j ≤ k → x ≤ ys.get ⟨k, hk⟩) := by
  intro n
  induction n with
  | zero =>
    intro l r hn hlr hrlen hl hr
    have hstop : ¬ l < r := by omega
    refine ⟨l, Or.inr (bsGo_stop _ _ hstop), by omega, hl, ?_⟩
    intro k hk hlk
    exact hr k hk (by omega)
  | succ m ih =>
    intro l r hn hlr hrlen hl hr
    by_cases hltr : l < r
    · have hmid2 : (r - l) / 2 < r - l := Nat.div_lt_self (by omega) (by omega)
      have hmidr : l + (r - l) / 2 < r := by omega
      have hmidlen : l + (r - l) / 2 < ys.length := by omega
      have hprobe : (ys.map F.val).getD (l + (r - l) / 2) (F.val 0)
          = F.val (ys.get ⟨l + (r - l) / 2, hmidlen⟩) := by
        rw [getD_map_val, getDq_eq_get ys _ hmidlen]
      rw [bsGo_step _ _ hltr, hprobe]
      rcases lt_trichotomy (ys.get ⟨l + (r - l) / 2, hmidlen⟩) x with hcmp | hcmp | hcmp
      · have hcc : F.fcmp (F.val (ys.get ⟨l + (r - l) / 2, hmidlen⟩)) (F.val x)
            = some .lt := by
          simp only [F.fcmp]
          rw [if_pos hcmp]
        rw [hcc]
        refine ih (l + (r - l) / 2 + 1) r (by omega) (by omega) hrlen ?_ hr
        intro k hk hklt
        by_cases hkl : k < l
        · exact hl k hk hkl
        · rcases eq_or_lt_of_le (show k ≤ l + (r - l) / 2 by omega) with heq | hlt2
          · exact heq ▸ hcmp
          · exact lt_trans (hmono k _ hk hmidlen hlt2) hcmp
      · have hcc : F.fcmp (F.val (ys.get ⟨l + (r - l) / 2, hmidlen⟩)) (F.val x)
            = some .eq := by
          simp only [F.fcmp]
          rw [if_neg (by rw [hcmp]; exact lt_irrefl x), if_pos hcmp]
        rw [hcc]
        refine ⟨l + (r - l) / 2, Or.inl rfl, by omega, ?_, ?_⟩
        · intro k hk hklt
          exact hcmp ▸ hmono k _ hk hmidlen hklt
        · intro k hk hkge
          rcases eq_or_lt_of_le hkge with heq | hlt2
          · exact le_of_eq (heq ▸ hcmp.symm)
          · exact le_of_lt (hcmp ▸ hmono _ k hmidlen hk hlt2)
      · have hcc : F.fcmp (F.val (ys.get ⟨l + (r - l) / 2, hmidlen⟩)) (F.val x)
            = some .gt := by
          have h1 : ¬ ys.get ⟨l + (r - l) / 2, hmidlen⟩ < x := not_lt.mpr (le_of_lt hcmp)
          have h2 : ¬ ys.get ⟨l + (r - l) / 2, hmidlen⟩ = x := ne_of_gt hcmp
          simp only [F.fcmp]
          rw [if_neg h1, if_neg h2]
        rw [hcc]
        refine ih l (l + (r - l) / 2) (by omega) (by omega) (by omega) hl ?_
        intro k hk hkge
        rcases eq_or_lt_of_le hkge with heq | hlt2
        · exact le_of_lt (heq ▸ hcmp)
        · exact le_of_lt (lt_trans hcmp (hmono _ k hmidlen hk hlt2))
    · refine ⟨l, Or.inr (bsGo_stop _ _ hltr), by omega, hl, ?_⟩
      intro k hk hlk
      exact hr k hk (by omega)

/-- Split characterization of the merged `binary_search_by` call. -/
theorem binarySearchIdx_split (ys : List ℚ) (x : ℚ)
    (hmono : ∀ (i j : Nat) (hi : i < ys.length) (hj : j < ys.length),
      i < j → ys.get ⟨i, hi⟩ < ys.get ⟨j, hj⟩) :
    ∃ j, binarySearchIdx (ys.map F.val) (F.val x) = some j ∧
      j ≤ ys.length ∧
      (∀ (k : Nat) (hk : k < ys.length), k < j → ys.get ⟨k, hk⟩ < x) ∧
      (∀ (k : Nat) (hk : k < ys.length), j ≤ k → x ≤ ys.get ⟨k, hk⟩) := by
  obtain ⟨j, hres, hjlen, hbelow, habove⟩ :=
    bsGo_split ys x hmono ys.length 0 (ys.map F.val).length
      (by simp) (by omega) (by simp)
      (by intro k hk hkl; omega)
      (by intro k hk hge; simp at hge; omega)
  refine ⟨j, ?_, hjlen, hbelow, habove⟩
  unfold binarySearchIdx
  rcases hres with hres | hres <;> rw [hres]

/-- A non-empty list is not `isEmpty`. -/
theorem isEmpty_false_of_ne_nil {α : Type} (l : List α) (h : l ≠ []) :
    l.isEmpty = false := by
  cases l with
  | nil => exact absurd rfl h
  | cons a t => rfl

/-- `f32::max(_, 0.0)` on finite values is the rational `max`. -/
theorem fmax_val_zero (a : ℚ) : F.fmax (F.val a) (F.val 0) = F.val (max a 0) := by
  simp only [F.fmax, F.flt, decide_eq_true_eq]
  by_cases hc : a < 0
  · rw [if_pos hc, max_eq_right (le_of_lt hc)]
  · rw [if_neg hc, max_eq_left (le_of_not_lt hc)]

/-- `clamp(0.0, m)` of a nonnegative finite value is the rational `min`. -/
theorem fclamp_val_min (a m : ℚ) (ha : 0 ≤ a) (hm : 0 ≤ m) :
    F.fclamp (F.val a) (F.val 0) (F.val m) = F.val (min a m) := by
  simp only [F.fclamp, F.flt, decide_eq_true_eq]
  rw [if_neg (not_lt.mpr ha)]
  by_cases hc : m < a
  · rw [if_pos hc, min_eq_right (le_of_lt hc)]
  · rw [if_neg hc, min_eq_left (le_of_not_lt hc)]

/-- C7 (amended): offset/index round trip under the conditions the engine
maintains — positive per-item heights, a fresh cumulative index and a
positive viewport: for every `i < N`, `set_scroll_offset(item_offset(i))`
followed by `visible_range` yields a range with `start ≤ i < end` (any
overscan).  A zero viewport breaks it (see the counterexample). -/
theorem C7_offset_index_roundtrip (s : VirtualList) (qs : List ℚ) (i : Nat) (v : ℚ)
    (hq : ∀ q ∈ qs, 0 < q)
    (hi : i < qs.length)
    (hcount : s.item_count = qs.length)
    (hcum : s.cumulative_heights = (scanSumQ 0 qs).map F.val)
    (htot : s.total_height = F.val qs.sum)
    (hdirty : s.dirty = false)
    (hvp : s.viewport_height = F.val v)
    (hv : 0 < v) :
    ∃ r, (s.set_scroll_offset (s.item_offset i)).visible_range = some r ∧
      r.start ≤ i ∧ i < r.stop := by
  have hlen : (scanSumQ 0 qs).length = qs.length := scanSumQ_length qs 0
  have hN : 0 < qs.length := by omega
  have hyget : ∀ (k : Nat) (hk : k < (scanSumQ 0 qs).length),
      (scanSumQ 0 qs).get ⟨k, hk⟩ = (qs.take (k + 1)).sum := by
    intro k hk
    rw [scanSumQ_get qs 0 k hk, zero_add]
  have hmono : ∀ (a b : Nat) (ha : a < (scanSumQ 0 qs).length)
      (hb : b < (scanSumQ 0 qs).length), a < b →
      (scanSumQ 0 qs).get ⟨a, ha⟩ < (scanSumQ 0 qs).get ⟨b, hb⟩ := by
    intro a b ha hb hab
    rw [hyget a ha, hyget b hb]
    exact sum_take_lt_of_pos qs hq (a + 1) (b + 1) (by omega) (by omega)
  have hoq0 : 0 ≤ (qs.take i).sum :=
    List.sum_nonneg (fun q hq' => le_of_lt (hq q (List.mem_of_mem_take hq')))
  have hM0 : (0 : ℚ) ≤ max (qs.sum - v) 0 := le_max_right _ _
  -- the target offset
  have ho : s.item_offset i = F.val ((qs.take i).sum) := by
    unfold VirtualList.item_offset VirtualList.ensure_calculated_immut
    dsimp only
    by_cases hi0 : i = 0
    · rw [if_pos hi0, hi0]
      simp
    · rw [if_neg hi0, if_pos (by rw [hcum, List.length_map, hlen]; omega), hcum,
        getD_map_val, getDq_eq_get (scanSumQ 0 qs) (i - 1) (by rw [hlen]; omega),
        hyget (i - 1) (by rw [hlen]; omega), show i - 1 + 1 = i by omega]
  have hens : s.ensure_calculated = s := by
    unfold VirtualList.ensure_calculated
    rw [hdirty]
    simp
  have hsub : F.fsub (F.val qs.sum) (F.val v) = F.val (qs.sum - v) := by
    simp [F.fsub, F.fneg, F.fadd, sub_eq_add_neg]
  have hs' : s.set_scroll_offset (s.item_offset i) =
      { s with scroll_offset := F.val (min ((qs.take i).sum) (max (qs.sum - v) 0)) } := by
    unfold VirtualList.set_scroll_offset
    rw [hens]
    dsimp only
    rw [ho, htot, hvp, hsub, fmax_val_zero, fclamp_val_min _ _ hoq0 hM0]
  have hysne : (scanSumQ 0 qs).map F.val ≠ [] := by
    intro hnil
    have h0 := congrArg List.length hnil
    rw [List.length_map, hlen, List.length_nil] at h0
    omega
  have hcumne : ((scanSumQ 0 qs).map F.val).isEmpty = false :=
    isEmpty_false_of_ne_nil _ hysne
  obtain ⟨j1, hj1, hj1len, hbelow1, habove1⟩ :=
    binarySearchIdx_split (scanSumQ 0 qs) (min ((qs.take i).sum) (max (qs.sum - v) 0)) hmono
  obtain ⟨j2, hj2, hj2len, hbelow2, habove2⟩ :=
    binarySearchIdx_split (scanSumQ 0 qs)
      (min ((qs.take i).sum) (max (qs.sum - v) 0) + v) hmono
  -- the two find calls of visible_range
  have hfind : ∀ (t : VirtualList) (x : ℚ) (j : Nat),
      t.cumulative_heights = (scanSumQ 0 qs).map F.val → t.item_count = qs.length →
      binarySearchIdx ((scanSumQ 0 qs).map F.val) (F.val x) = some j →
      t.find_item_at_offset (F.val x) = some (min j (qs.length - 1)) := by
    intro t x j htc htn hj
    unfold VirtualList.find_item_at_offset
    rw [htc, hcumne, hj]
    simp only [Bool.false_eq_true, if_false]
    rw [htn]
  -- index bounds at the split points
  have hj1i : j1 ≤ i := by
    by_contra hcon
    push_neg at hcon
    have hik : i < (scanSumQ 0 qs).length := by omega
    have h1 := hbelow1 i hik hcon
    rw [hyget i hik] at h1
    have h2 : (qs.take i).sum ≤ (qs.take (i + 1)).sum :=
      sum_take_le_of_pos qs hq i (i + 1) (by omega)
    have h3 : min ((qs.take i).sum) (max (qs.sum - v) 0) ≤ (qs.take i).sum :=
      min_le_left _ _
    linarith
  have hj2i : i ≤ min j2 (qs.length - 1) := by
    rcases le_or_lt ((qs.take i).sum) (max (qs.sum - v) 0) with hcase | hcase
    · -- no clamping: the offset is exactly item_offset i
      have hoq : min ((qs.take i).sum) (max (qs.sum - v) 0) = (qs.take i).sum :=
        min_eq_left hcase
      by_cases hi0 : i = 0
      · omega
      · have hj2ge : i ≤ j2 := by
          by_contra hcon
          push_neg at hcon
          have hik : i - 1 < (scanSumQ 0 qs).length := by omega
          have h1 := habove2 (i - 1) hik (by omega)
          rw [hyget (i - 1) hik, hoq] at h1
          have h2 : (qs.take (i - 1 + 1)).sum = (qs.take i).sum := by
            congr 2
            omega
          rw [h2] at h1
          linarith
        omega
    · -- clamped to max_scroll: the window reaches the very end
      have hoq : min ((qs.take i).sum) (max (qs.sum - v) 0) = max (qs.sum - v) 0 :=
        min_eq_right (le_of_lt hcase)
      have hx2 : qs.sum ≤ min ((qs.take i).sum) (max (qs.sum - v) 0) + v := by
        rw [hoq]
        have := le_max_left (qs.sum - v) 0
        linarith
      have hj2ge : qs.length - 1 ≤ j2 := by
        by_contra hcon
        push_neg at hcon
        have hik : qs.length - 2 < (scanSumQ 0 qs).length := by omega
        have h1 := habove2 (qs.length - 2) hik (by omega)
        rw [hyget (qs.length - 2) hik] at h1
        have h2 : (qs.take (qs.length - 2 + 1)).sum < (qs.take qs.length).sum :=
          sum_take_lt_of_pos qs hq (qs.length - 2 + 1) qs.length (by omega) (by omega)
        rw [List.take_length] at h2
        linarith
      omega
  -- assemble the range
  rw [hs']
  unfold VirtualList.visible_range VirtualList.ensure_calculated_immut
  dsimp only
  rw [if_neg (by rw [hcount]; omega)]
  rw [hfind ({ s with scroll_offset := F.val (min ((qs.take i).sum) (max (qs.sum - v) 0)) }) _ j1 hcum hcount hj1]
  rw [hvp]
  rw [show F.fadd (F.val (min ((qs.take i).sum) (max (qs.sum - v) 0))) (F.val v)
    = F.val (min ((qs.take i).sum) (max (qs.sum - v) 0) + v) from rfl]
  rw [hfind ({ s with scroll_offset := F.val (min ((qs.take i).sum) (max (qs.sum - v) 0)), viewport_height := F.val v }) _ j2 hcum hcount hj2]
  refine ⟨_, rfl, ?_, ?_⟩
  · dsimp only
    omega
  · dsimp only
    rw [hcount]
    omega

/-- C7 counterexample: with viewport height `0` (and overscan `0`) on two
items of height 50, scrolling to `item_offset(1) = 50` and querying
`visible_range` yields `[0, 1)`, which does not contain index 1: the
round trip fails for a state with a non-positive viewport. -/
theorem C7_offset_index_roundtrip_counterexample :
    (c7Zero.set_scroll_offset (c7Zero.item_offset 1)).visible_range
      = some ⟨0, 1, F.val 0⟩ ∧
    ¬ ∃ r, (c7Zero.set_scroll_offset (c7Zero.item_offset 1)).visible_range = some r ∧
      r.start ≤ 1 ∧ 1 < r.stop := by
  have h1 : (c7Zero.set_scroll_offset (c7Zero.item_offset 1)).visible_range
      = some ⟨0, 1, F.val 0⟩ := by
    norm_num [c7Zero, VirtualList.set_scroll_offset, VirtualList.ensure_calculated,
      VirtualList.ensure_calculated_immut, VirtualList.item_offset, VirtualList.visible_range,
      VirtualList.find_item_at_offset, VirtualListConfig.default, binarySearchIdx,
      bsGo_step, bsGo_stop, F.fadd, F.fcmp, F.fsub, F.fneg, F.fmax, F.fclamp, F.flt,
      List.getD, Nat.min_def]
  refine ⟨h1, ?_⟩
  rintro ⟨r, hr, hstart, hstop⟩
  rw [h1] at hr
  have hrr : r = ⟨0, 1, F.val 0⟩ := by
    injection hr with h
    exact h.symm
  rw [hrr] at hstop
  simp at hstop

/-- C7 witness: the round trip at the clean six-item list, index 3. -/
theorem C7_offset_index_roundtrip_witness :
    ∃ r, (sampleVL.set_scroll_offset (sampleVL.item_offset 3)).visible_range = some r ∧
      r.start ≤ 3 ∧ 3 < r.stop := by
  refine C7_offset_index_roundtrip sampleVL (List.replicate 6 48) 3 100 ?_ ?_ ?_ ?_ ?_ ?_ ?_ ?_
  · intro q hq
    rw [List.eq_of_mem_replicate hq]
    norm_num
  · simp
  · simp [sampleVL]
  · norm_num [sampleVL, scanSumQ, List.replicate]
  · norm_num [sampleVL, List.replicate]
  · simp [sampleVL]
  · simp [sampleVL]
  · norm_num
